import Mathlib

/-!
Shallow embedding of `src/detector.py`, a single-file ETL script that loads
order rows from a spreadsheet, validates and cleans them, and upserts them
into the SQLite table `Order`.

Modelling conventions:
* A pandas/SQL cell is a `Value`; `Value.null` stands for Python `None`,
  a missing cell and NaN (everything `pd.isna` accepts), `Value.str` for
  strings and `Value.num` for numeric payloads.
* A data-frame row is a total function `String → Value` from column name to
  cell; a data frame is such rows plus the list of column labels.
* The SQLite `Order` table is a list of `OrderRecord`s; `INSERT OR REPLACE`
  keyed on `order_id` deletes every conflicting row and appends the new one,
  and SQL `=` (used both by the conflict key and by the `SELECT ... WHERE`
  subquery) never matches `NULL`, which `sqlEqB` reflects.
* Row-level database failures (constraint violations raised by
  `cursor.execute`) are abstracted by an oracle `err` giving, for a row,
  the error message of the `sqlite3.DatabaseError` it raises, or `none`
  when the insert succeeds.
* `datetime.utcnow().strftime('%Y-%m-%d %H:%M:%S')` is modelled by
  `strftime` applied to an explicit `DateTime` argument.
-/

namespace Detector

/-- A cell value: `null` models Python `None`, a missing value and NaN
(`pd.isna`); strings and numbers model spreadsheet payloads. -/
inductive Value where
  | null
  | str (s : String)
  | num (n : Int)
  deriving DecidableEq

/-- Embeds `expected_columns` (detector.py line 20). -/
def expected_columns : List String :=
  ["order_id", "customer_name", "carta_id", "status", "width_of_carta", "shape_of_carta"]

/-- Whitespace, as stripped by Python's `str.strip()` (ASCII range). -/
def pySpace (c : Char) : Bool :=
  c == ' ' || c == '\t' || c == '\n' || c == '\r'

/-- Python `str.strip()`: drop whitespace from both ends. -/
def pyStrip (s : String) : String :=
  String.mk (((s.data.dropWhile pySpace).reverse.dropWhile pySpace).reverse)

/-- Python `str.upper()` (ASCII characters). -/
def pyUpper (s : String) : String :=
  String.mk (s.data.map Char.toUpper)

/-- Checks `startsWithL s pre`: the char list `pre` is an initial segment of `s`. -/
def startsWithL : List Char → List Char → Bool
  | _, [] => true
  | [], _ :: _ => false
  | c :: cs, p :: ps => (p == c) && startsWithL cs ps

/-- Python `str.startswith(pre)`. -/
def pyStartsWith (s pre : String) : Bool :=
  startsWithL s.data pre.data

/-- Splitting a char list at every space, keeping empty pieces
(Python `str.split(' ')`). -/
def splitSpaceAux : List Char → List Char → List (List Char)
  | [], cur => [cur.reverse]
  | c :: cs, cur =>
      if c = ' ' then cur.reverse :: splitSpaceAux cs [] else splitSpaceAux cs (c :: cur)

/-- Python `str.split(' ')` on a string. -/
def pySplitSpace (s : String) : List String :=
  (splitSpaceAux s.data []).map String.mk

/-- Embeds `validate_order_id` (lines 23-26): a value passes iff it is a string
whose stripped, upper-cased form starts with `"OR"`. -/
def validate_order_id : Value → Bool
  | Value.str s => pyStartsWith (pyUpper (pyStrip s)) "OR"
  | _ => false

/-- Embeds `clean_value` (lines 29-32): `pd.isna(value) or value == '' or value == ' '`
becomes `None`; any other value is returned unchanged. -/
def clean_value (v : Value) : Value :=
  if v = Value.null ∨ v = Value.str "" ∨ v = Value.str " " then Value.null else v

/-- An in-memory data frame: column labels plus rows, each row a total map
from column name to cell value. -/
structure RawTable where
  headers : List String
  rows : List (String → Value)

/-- Embeds `df.loc[:, ~df.columns.str.contains('^Unnamed')]` (line 43): drop every
column whose label starts with `"Unnamed"`. -/
def dropUnnamed (t : RawTable) : RawTable :=
  { headers := t.headers.filter (fun h => !pyStartsWith h "Unnamed"), rows := t.rows }

/-- Embeds `missing_cols` (line 47): the expected columns absent after dropping
unnamed columns, in `expected_columns` order. -/
def missingColumns (t : RawTable) : List String :=
  expected_columns.filter (fun c => decide (c ∉ (dropUnnamed t).headers))

/-- Lines 43-53 of `load_and_clean_excel`: drop unnamed columns, check the
required columns, raise `KeyError` listing the missing ones, else restrict
to exactly the expected columns (row order untouched). -/
def loadStage (t : RawTable) : Except String RawTable :=
  if expected_columns.all (fun c => decide (c ∈ (dropUnnamed t).headers)) then
    Except.ok { headers := expected_columns, rows := t.rows }
  else
    Except.error ("Missing required columns: " ++ String.intercalate ", " (missingColumns t))

/-- Lines 56-66: keep exactly the rows whose `order_id` passes
`validate_order_id` (the boolean mask `valid_order_ids`). -/
def filterValid (rows : List (String → Value)) : List (String → Value) :=
  rows.filter (fun q => validate_order_id (q "order_id"))

/-- Lines 74-75: apply `clean_value` to every cell of every selected column. -/
def cleanRow (q : String → Value) : String → Value :=
  fun c => if c ∈ expected_columns then clean_value (q c) else q c

/-- Line 78: set the `updated_at` column of a row to the formatted timestamp. -/
def stampRow (ts : String) (q : String → Value) : String → Value :=
  fun c => if c = "updated_at" then Value.str ts else q c

/-- A wall-clock instant, as handed back by `datetime.utcnow()`. -/
structure DateTime where
  year : Nat
  month : Nat
  day : Nat
  hour : Nat
  minute : Nat
  second : Nat

/-- Two-digit zero-padded decimal rendering (`%m`, `%d`, `%H`, `%M`, `%S`). -/
def pad2 (n : Nat) : String :=
  String.mk [Nat.digitChar (n / 10), Nat.digitChar (n % 10)]

/-- Four-digit zero-padded decimal rendering (`%Y` for years below 10000). -/
def pad4 (n : Nat) : String :=
  String.mk [Nat.digitChar (n / 1000), Nat.digitChar (n / 100 % 10),
             Nat.digitChar (n / 10 % 10), Nat.digitChar (n % 10)]

/-- Renders `strftime('%Y-%m-%d %H:%M:%S')` on a `DateTime`. -/
def strftime (d : DateTime) : String :=
  pad4 d.year ++ "-" ++ pad2 d.month ++ "-" ++ pad2 d.day ++ " " ++
    pad2 d.hour ++ ":" ++ pad2 d.minute ++ ":" ++ pad2 d.second

/-- Checks that a string has the shape `YYYY-MM-DD HH:MM:SS`: nineteen
characters, digits and the fixed separators in the fixed places. -/
def isTsFormat (s : String) : Bool :=
  match s.toList with
  | [y1, y2, y3, y4, d1, m1, m2, d2, a1, a2, sp, h1, h2, c1, n1, n2, c2, s1, s2] =>
      y1.isDigit && y2.isDigit && y3.isDigit && y4.isDigit && d1 == '-' &&
      m1.isDigit && m2.isDigit && d2 == '-' && a1.isDigit && a2.isDigit &&
      sp == ' ' && h1.isDigit && h2.isDigit && c1 == ':' &&
      n1.isDigit && n2.isDigit && c2 == ':' && s1.isDigit && s2.isDigit
  | _ => false

/-- Embeds `load_and_clean_excel` (lines 35-87) after the spreadsheet has been
parsed into a `RawTable`: column handling, `order_id` filtering, cell
cleaning and timestamp stamping.  The empty-batch early return (lines 69-71)
hands back the filtered frame without an `updated_at` column. -/
def load_and_clean_excel (t : RawTable) (now : DateTime) : Except String RawTable :=
  match loadStage t with
  | Except.error e => Except.error e
  | Except.ok df =>
      if (filterValid df.rows).isEmpty then
        Except.ok { headers := df.headers, rows := filterValid df.rows }
      else
        Except.ok { headers := df.headers ++ ["updated_at"],
                    rows := (filterValid df.rows).map
                      (fun q => stampRow (strftime now) (cleanRow q)) }

/-- A stored row of the SQLite table `Order`. -/
structure OrderRecord where
  order_id : Value
  customer_name : Value
  carta_id : Value
  status : Value
  width_of_carta : Value
  shape_of_carta : Value
  created_by : Value
  updated_by : Value
  updated_at : Value
  deriving DecidableEq

/-- SQL equality as used by `WHERE order_id = ?` and by the `INSERT OR
REPLACE` conflict key: `NULL` compares equal to nothing. -/
def sqlEqB (a b : Value) : Bool :=
  !(a == Value.null) && !(b == Value.null) && (a == b)

/-- Embeds `SELECT ... FROM Order WHERE order_id = v`: the first stored record whose
key SQL-equals `v`. -/
def findRec (db : List OrderRecord) (v : Value) : Option OrderRecord :=
  db.find? (fun q => sqlEqB q.order_id v)

/-- Number of stored records whose key SQL-equals `v`. -/
def countId (db : List OrderRecord) (v : Value) : Nat :=
  (db.filter (fun q => sqlEqB q.order_id v)).length

/-- Embeds `COALESCE((SELECT created_by FROM Order WHERE order_id = v), 'system')`
(line 128): the existing record's `created_by` when that is non-`NULL`,
else the default `'system'`. -/
def coalesce_created (db : List OrderRecord) (v : Value) : Value :=
  match findRec db v with
  | some old => if old.created_by = Value.null then Value.str "system" else old.created_by
  | none => Value.str "system"

/-- Reads `row['order_id']` of a data-frame row. -/
def rid (q : String → Value) : Value := q "order_id"

/-- The record built by the `VALUES` tuple of lines 123-141: raw `order_id`,
business fields passed through `clean_value`, the given `created_by`,
`updated_by = 'system'` and the row's `updated_at`. -/
def mkRecord (q : String → Value) (created : Value) : OrderRecord :=
  { order_id := q "order_id"
    customer_name := clean_value (q "customer_name")
    carta_id := clean_value (q "carta_id")
    status := clean_value (q "status")
    width_of_carta := clean_value (q "width_of_carta")
    shape_of_carta := clean_value (q "shape_of_carta")
    created_by := created
    updated_by := Value.str "system"
    updated_at := q "updated_at" }

/-- One `INSERT OR REPLACE` (lines 123-141): every record conflicting on the
key is removed and the new record, with `created_by` resolved by
`coalesce_created` against the pre-statement table, is appended. -/
def upsertRow (db : List OrderRecord) (q : String → Value) : List OrderRecord :=
  (db.filter (fun w => !sqlEqB w.order_id (rid q))) ++
    [mkRecord q (coalesce_created db (rid q))]

/-- The table after upserting a list of rows in order. -/
def upsertAll (db : List OrderRecord) (rows : List (String → Value)) : List OrderRecord :=
  rows.foldl upsertRow db

/-- The observable state produced by `insert_into_existing_table`: the table,
the `customer_name` nullability of its schema, and the two trackers
`successful_transfers` (a list) and `failed_transfers` (an insertion-ordered
dict keyed by order id). -/
structure WriterResult where
  db : List OrderRecord
  customer_name_nullable : Bool
  successful_transfers : List Value
  failed_transfers : List (Value × String)
  deriving DecidableEq

/-- Python `dict` assignment `d[k] = v`: replace the value of an existing
key in place, else append the new pair. -/
def dictInsert (d : List (Value × String)) (k : Value) (v : String) : List (Value × String) :=
  if d.any (fun p => p.1 == k) then d.map (fun p => if p.1 == k then (p.1, v) else p)
  else d ++ [(k, v)]

/-- The `for index, row in df.iterrows()` loop of lines 120-152: a failing
row (oracle `err` returns its error message) only records the failure and
continues; a succeeding row upserts and is appended to
`successful_transfers`. -/
def writerLoop (err : (String → Value) → Option String) :
    List (String → Value) → WriterResult → WriterResult
  | [], st => st
  | q :: rest, st =>
      match err q with
      | some msg =>
          writerLoop err rest
            { st with failed_transfers := dictInsert st.failed_transfers (rid q) msg }
      | none =>
          writerLoop err rest
            { st with db := upsertRow st.db q,
                      successful_transfers := st.successful_transfers ++ [rid q] }

/-- The literal SQL text executed at lines 113-115 (MySQL `MODIFY COLUMN`
syntax). -/
def alter_statement : String :=
  "ALTER TABLE `Order` MODIFY COLUMN customer_name TEXT NULL;"

/-- SQLite's `ALTER TABLE` grammar: after `ALTER TABLE <name>` only the
verbs `RENAME`, `ADD` and `DROP` are accepted; any other verb is a syntax
error and `cursor.execute` raises `sqlite3.OperationalError`. -/
def sqliteAlterAccepted (stmt : String) : Bool :=
  match (pySplitSpace (pyStrip stmt)).drop 3 with
  | verb :: _ => verb == "RENAME" || verb == "ADD" || verb == "DROP"
  | [] => false

/-- Lines 112-118: attempt the `ALTER TABLE`; on success the column would
allow `NULL`, and an `OperationalError` is swallowed (`pass`), leaving the
schema as it was. -/
def applyAlterAttempt (customer_name_nullable : Bool) : Bool :=
  if sqliteAlterAccepted alter_statement then true else customer_name_nullable

/-- Embeds `insert_into_existing_table` (lines 90-162) on an already-loaded batch:
empty batches return immediately (lines 93-95); otherwise the `ALTER TABLE`
is attempted once and the row loop runs. -/
def insert_into_existing_table (err : (String → Value) → Option String)
    (df : List (String → Value)) (db : List OrderRecord)
    (customer_name_nullable : Bool) : WriterResult :=
  if df.isEmpty then
    { db := db, customer_name_nullable := customer_name_nullable,
      successful_transfers := [], failed_transfers := [] }
  else
    writerLoop err df
      { db := db, customer_name_nullable := applyAlterAttempt customer_name_nullable,
        successful_transfers := [], failed_transfers := [] }

/-- The oracle of a run in which no row raises a database error. -/
def errNone : (String → Value) → Option String := fun _ => none

/-- Embeds `file_path` (line 9). -/
def file_path : String := "08mm.xlsx"

/-- The observable outcome of one `main()` run: whether an exception
escaped, which stages ran, the resulting store state and the error-level
log lines. -/
structure RunResult where
  raised : Option String
  loader_invoked : Bool
  writer_invoked : Bool
  db : List OrderRecord
  customer_name_nullable : Bool
  error_logs : List String

/-- Embeds `main` (lines 165-190): `input_file` is the parsed content of
`file_path` when that file exists, `none` when it does not.  A missing file
is logged and the run returns normally without touching Loader or Writer;
a `KeyError` from the loader is re-raised; otherwise the Writer runs. -/
def main (input_file : Option RawTable) (now : DateTime)
    (err : (String → Value) → Option String) (db : List OrderRecord)
    (customer_name_nullable : Bool) : RunResult :=
  match input_file with
  | none =>
      { raised := none, loader_invoked := false, writer_invoked := false,
        db := db, customer_name_nullable := customer_name_nullable,
        error_logs := ["File not found: " ++ file_path] }
  | some t =>
      match load_and_clean_excel t now with
      | Except.error e =>
          { raised := some e, loader_invoked := true, writer_invoked := false,
            db := db, customer_name_nullable := customer_name_nullable,
            error_logs := ["Error: " ++ e] }
      | Except.ok dfc =>
          let w := insert_into_existing_table err dfc.rows db customer_name_nullable
          { raised := none, loader_invoked := true, writer_invoked := true,
            db := w.db, customer_name_nullable := w.customer_name_nullable,
            error_logs := [] }

/-! ### Helper lemmas about the embedded operations -/

theorem sqlEqB_true_iff {a b : Value} :
    sqlEqB a b = true ↔ a = b ∧ a ≠ Value.null ∧ b ≠ Value.null := by
  simp only [sqlEqB, Bool.and_eq_true, Bool.not_eq_true', beq_eq_false_iff_ne, beq_iff_eq,
    ne_eq]
  tauto

theorem sqlEqB_false_of {a v r : Value} (hav : sqlEqB a v = true)
    (h : sqlEqB r v = false) : sqlEqB a r = false := by
  cases hb : sqlEqB a r with
  | false => rfl
  | true =>
      rcases sqlEqB_true_iff.mp hav with ⟨he1, _, hvn⟩
      rcases sqlEqB_true_iff.mp hb with ⟨he2, _, hrn⟩
      have : sqlEqB r v = true := sqlEqB_true_iff.mpr ⟨he2 ▸ he1, hrn, hvn⟩
      rw [this] at h
      cases h

theorem find?_filter_not_append {α : Type} (l : List α) (p : α → Bool) (m : α)
    (hm : p m = true) :
    ((l.filter (fun x => !p x)) ++ [m]).find? p = some m := by
  induction l with
  | nil => simp [List.find?, hm]
  | cons a l ih =>
      by_cases ha : p a = true
      · simpa [List.filter_cons, ha] using ih
      · have ha' : p a = false := by simpa using ha
        simpa [List.filter_cons, ha', List.find?_cons] using ih

theorem find?_filter_append_of_none {α : Type} (l : List α) (p w : α → Bool) (m : α)
    (hm : p m = false) (h : ∀ x, p x = true → w x = true) :
    ((l.filter w) ++ [m]).find? p = l.find? p := by
  induction l with
  | nil => simp [List.find?, hm]
  | cons a l ih =>
      by_cases ha : p a = true
      · have hw : w a = true := h a ha
        simp [List.filter_cons, hw, List.find?_cons, ha]
      · have ha' : p a = false := by simpa using ha
        by_cases hwa : w a = true
        · simpa [List.filter_cons, hwa, List.find?_cons, ha'] using ih
        · have hwa' : w a = false := by simpa using hwa
          simpa [List.filter_cons, hwa', List.find?_cons, ha'] using ih

theorem findRec_upsertRow (db : List OrderRecord) (q : String → Value) (v : Value) :
    findRec (upsertRow db q) v =
      if sqlEqB (rid q) v = true then some (mkRecord q (coalesce_created db (rid q)))
      else findRec db v := by
  by_cases h : sqlEqB (rid q) v = true
  · rw [if_pos h]
    rcases sqlEqB_true_iff.mp h with ⟨heq, hnn, _⟩
    subst heq
    exact find?_filter_not_append db (fun w => sqlEqB w.order_id (rid q))
      (mkRecord q (coalesce_created db (rid q))) h
  · rw [if_neg h]
    have h' : sqlEqB (rid q) v = false := by simpa using h
    refine find?_filter_append_of_none db _ _ _ h' ?_
    intro x hx
    have : sqlEqB x.order_id (rid q) = false := sqlEqB_false_of hx h'
    simp [this]

theorem countId_upsertRow (db : List OrderRecord) (q : String → Value) (v : Value) :
    countId (upsertRow db q) v =
      if sqlEqB (rid q) v = true then 1 else countId db v := by
  unfold countId upsertRow
  rw [List.filter_append, List.length_append, List.filter_filter]
  by_cases h : sqlEqB (rid q) v = true
  · rw [if_pos h]
    rcases sqlEqB_true_iff.mp h with ⟨heq, _, _⟩
    subst heq
    have h1 : db.filter (fun a => sqlEqB a.order_id (rid q) && !sqlEqB a.order_id (rid q)) = [] := by
      apply List.filter_eq_nil_iff.mpr
      intro a _
      simp
    have h2 : List.filter (fun a => sqlEqB a.order_id (rid q))
        [mkRecord q (coalesce_created db (rid q))] = [mkRecord q (coalesce_created db (rid q))] := by
      simp only [List.filter_cons, List.filter_nil]
      rw [if_pos
        (show sqlEqB (mkRecord q (coalesce_created db (rid q))).order_id (rid q) = true from h)]
    rw [h1, h2]
    simp
  · rw [if_neg h]
    have h' : sqlEqB (rid q) v = false := by simpa using h
    have h1 : db.filter (fun a => sqlEqB a.order_id v && !sqlEqB a.order_id (rid q)) =
        db.filter (fun a => sqlEqB a.order_id v) := by
      apply List.filter_congr
      intro a _
      by_cases hav : sqlEqB a.order_id v = true
      · have : sqlEqB a.order_id (rid q) = false := sqlEqB_false_of hav h'
        simp [hav, this]
      · have hav' : sqlEqB a.order_id v = false := by simpa using hav
        simp [hav']
    have h2 : List.filter (fun a => sqlEqB a.order_id v)
        [mkRecord q (coalesce_created db (rid q))] = [] := by
      simp only [List.filter_cons, List.filter_nil]
      rw [if_neg
        (show ¬sqlEqB (mkRecord q (coalesce_created db (rid q))).order_id v = true from h)]
    rw [h1, h2, List.length_nil]
    simp

theorem upsertAll_nil (db : List OrderRecord) : upsertAll db [] = db := rfl

theorem upsertAll_cons (db : List OrderRecord) (q : String → Value)
    (rows : List (String → Value)) :
    upsertAll db (q :: rows) = upsertAll (upsertRow db q) rows := rfl

theorem findRec_upsertAll_frame (rows : List (String → Value)) (db : List OrderRecord)
    (v : Value) (h : ∀ q ∈ rows, sqlEqB (rid q) v = false) :
    findRec (upsertAll db rows) v = findRec db v := by
  induction rows generalizing db with
  | nil => rfl
  | cons q rows ih =>
      rw [upsertAll_cons, ih _ (fun x hx => h x (List.mem_cons_of_mem _ hx)),
        findRec_upsertRow, if_neg]
      simp [h q (List.mem_cons_self q rows)]

theorem countId_upsertAll_frame (rows : List (String → Value)) (db : List OrderRecord)
    (v : Value) (h : ∀ q ∈ rows, sqlEqB (rid q) v = false) :
    countId (upsertAll db rows) v = countId db v := by
  induction rows generalizing db with
  | nil => rfl
  | cons q rows ih =>
      rw [upsertAll_cons, ih _ (fun x hx => h x (List.mem_cons_of_mem _ hx)),
        countId_upsertRow, if_neg]
      simp [h q (List.mem_cons_self q rows)]

theorem any_eq_false_forall {α : Type} {l : List α} {p : α → Bool}
    (h : ¬ l.any p = true) : ∀ x ∈ l, p x = false := by
  intro x hx
  have h0 : l.any p = false := by simpa using h
  have := List.any_eq_false.mp h0 x hx
  simpa using this

theorem countId_upsertAll_mem (rows : List (String → Value)) (db : List OrderRecord)
    (v : Value) (h : rows.any (fun q => sqlEqB (rid q) v) = true) :
    countId (upsertAll db rows) v = 1 := by
  induction rows generalizing db with
  | nil => simp at h
  | cons q rows ih =>
      by_cases hr : rows.any (fun w => sqlEqB (rid w) v) = true
      · rw [upsertAll_cons]
        exact ih _ hr
      · have hq : sqlEqB (rid q) v = true := by
          rcases List.any_eq_true.mp h with ⟨x, hx, hpx⟩
          rcases List.mem_cons.mp hx with rfl | hmem
          · exact hpx
          · exact absurd (List.any_eq_true.mpr ⟨x, hmem, hpx⟩) hr
        rw [upsertAll_cons, countId_upsertAll_frame rows _ v (any_eq_false_forall hr),
          countId_upsertRow, if_pos hq]

theorem findRec_upsertAll_updated (rows : List (String → Value)) (db : List OrderRecord)
    (v : Value) (ts : String) (hts : ∀ q ∈ rows, q "updated_at" = Value.str ts)
    (h : rows.any (fun q => sqlEqB (rid q) v) = true) :
    (findRec (upsertAll db rows) v).map OrderRecord.updated_at = some (Value.str ts) := by
  induction rows generalizing db with
  | nil => simp at h
  | cons q rows ih =>
      by_cases hr : rows.any (fun w => sqlEqB (rid w) v) = true
      · rw [upsertAll_cons]
        exact ih _ (fun x hx => hts x (List.mem_cons_of_mem _ hx)) hr
      · have hq : sqlEqB (rid q) v = true := by
          rcases List.any_eq_true.mp h with ⟨x, hx, hpx⟩
          rcases List.mem_cons.mp hx with rfl | hmem
          · exact hpx
          · exact absurd (List.any_eq_true.mpr ⟨x, hmem, hpx⟩) hr
        rw [upsertAll_cons, findRec_upsertAll_frame rows _ v (any_eq_false_forall hr),
          findRec_upsertRow, if_pos hq]
        simp [mkRecord, hts q (List.mem_cons_self q rows)]

theorem coalesce_created_ne_null (db : List OrderRecord) (v : Value) :
    coalesce_created db v ≠ Value.null := by
  unfold coalesce_created
  cases h : findRec db v with
  | none => simp
  | some old =>
      by_cases hc : old.created_by = Value.null <;> simp [hc]

theorem created_upsertRow_preserved (db : List OrderRecord) (q : String → Value)
    (v c : Value) (hc : c ≠ Value.null)
    (h : (findRec db v).map OrderRecord.created_by = some c) :
    (findRec (upsertRow db q) v).map OrderRecord.created_by = some c := by
  rw [findRec_upsertRow]
  by_cases hq : sqlEqB (rid q) v = true
  · rw [if_pos hq]
    rcases sqlEqB_true_iff.mp hq with ⟨heq, _, _⟩
    cases hf : findRec db v with
    | none => rw [hf] at h; simp at h
    | some old =>
        rw [hf] at h
        simp only [Option.map_some'] at h
        have hold : old.created_by = c := by injection h
        simp [mkRecord, coalesce_created, heq, hf, hold, hc]
  · rw [if_neg hq]
    exact h

theorem created_upsertAll_preserved (rows : List (String → Value)) (db : List OrderRecord)
    (v c : Value) (hc : c ≠ Value.null)
    (h : (findRec db v).map OrderRecord.created_by = some c) :
    (findRec (upsertAll db rows) v).map OrderRecord.created_by = some c := by
  induction rows generalizing db with
  | nil => exact h
  | cons q rows ih =>
      rw [upsertAll_cons]
      exact ih _ (created_upsertRow_preserved db q v c hc h)

theorem created_upsertAll_some (rows : List (String → Value)) (db : List OrderRecord)
    (v : Value) (h : rows.any (fun q => sqlEqB (rid q) v) = true) :
    ∃ c, c ≠ Value.null ∧
      (findRec (upsertAll db rows) v).map OrderRecord.created_by = some c := by
  induction rows generalizing db with
  | nil => simp at h
  | cons q rows ih =>
      by_cases hr : rows.any (fun w => sqlEqB (rid w) v) = true
      · rw [upsertAll_cons]
        exact ih _ hr
      · have hq : sqlEqB (rid q) v = true := by
          rcases List.any_eq_true.mp h with ⟨x, hx, hpx⟩
          rcases List.mem_cons.mp hx with rfl | hmem
          · exact hpx
          · exact absurd (List.any_eq_true.mpr ⟨x, hmem, hpx⟩) hr
        refine ⟨coalesce_created db (rid q), coalesce_created_ne_null db (rid q), ?_⟩
        rw [upsertAll_cons, findRec_upsertAll_frame rows _ v (any_eq_false_forall hr),
          findRec_upsertRow, if_pos hq]
        simp [mkRecord]

theorem writerLoop_db (err : (String → Value) → Option String)
    (rows : List (String → Value)) (st : WriterResult) :
    (writerLoop err rows st).db = upsertAll st.db (rows.filter (fun q => (err q).isNone)) := by
  induction rows generalizing st with
  | nil => rfl
  | cons q rows ih =>
      cases he : err q with
      | some msg => simp [writerLoop, he, List.filter_cons, ih]
      | none => simp [writerLoop, he, List.filter_cons, ih, upsertAll_cons]

theorem writerLoop_nullable (err : (String → Value) → Option String)
    (rows : List (String → Value)) (st : WriterResult) :
    (writerLoop err rows st).customer_name_nullable = st.customer_name_nullable := by
  induction rows generalizing st with
  | nil => rfl
  | cons q rows ih =>
      cases he : err q with
      | some msg => simp [writerLoop, he, ih]
      | none => simp [writerLoop, he, ih]

theorem writerLoop_successes (err : (String → Value) → Option String)
    (rows : List (String → Value)) (st : WriterResult) :
    (writerLoop err rows st).successful_transfers =
      st.successful_transfers ++ (rows.filter (fun q => (err q).isNone)).map rid := by
  induction rows generalizing st with
  | nil => simp [writerLoop]
  | cons q rows ih =>
      cases he : err q with
      | some msg => simp [writerLoop, he, List.filter_cons, ih]
      | none => simp [writerLoop, he, List.filter_cons, ih]

theorem dictInsert_keys (d : List (Value × String)) (k : Value) (v : String) :
    (dictInsert d k v).map Prod.fst =
      if d.any (fun p => p.1 == k) = true then d.map Prod.fst else d.map Prod.fst ++ [k] := by
  unfold dictInsert
  by_cases h : d.any (fun p => p.1 == k) = true
  · rw [if_pos h, if_pos h, List.map_map]
    apply List.map_congr_left
    intro p _
    by_cases hp : p.1 = k <;> simp [hp]
  · rw [if_neg h, if_neg h]
    simp

theorem mem_keys_dictInsert_self (d : List (Value × String)) (k : Value) (v : String) :
    k ∈ (dictInsert d k v).map Prod.fst := by
  rw [dictInsert_keys]
  by_cases h : d.any (fun p => p.1 == k) = true
  · rw [if_pos h]
    rcases List.any_eq_true.mp h with ⟨p, hp, hpk⟩
    have hk : p.1 = k := by simpa using hpk
    exact hk ▸ List.mem_map_of_mem _ hp
  · rw [if_neg h]
    simp

theorem mem_keys_dictInsert_mono (d : List (Value × String)) (k' : Value) (v : String)
    (k : Value) (h : k ∈ d.map Prod.fst) : k ∈ (dictInsert d k' v).map Prod.fst := by
  rw [dictInsert_keys]
  split
  · exact h
  · exact List.mem_append_left _ h

theorem writerLoop_failed_mono (err : (String → Value) → Option String)
    (rows : List (String → Value)) (st : WriterResult) (k : Value)
    (h : k ∈ st.failed_transfers.map Prod.fst) :
    k ∈ (writerLoop err rows st).failed_transfers.map Prod.fst := by
  induction rows generalizing st with
  | nil => exact h
  | cons q rows ih =>
      cases he : err q with
      | some msg =>
          simp only [writerLoop, he]
          exact ih _ (mem_keys_dictInsert_mono _ _ _ _ h)
      | none =>
          simp only [writerLoop, he]
          exact ih _ h

theorem writerLoop_failed_mem (err : (String → Value) → Option String)
    (rows : List (String → Value)) (st : WriterResult) (q : String → Value)
    (hq : q ∈ rows) (hf : (err q).isSome = true) :
    rid q ∈ (writerLoop err rows st).failed_transfers.map Prod.fst := by
  induction rows generalizing st with
  | nil => cases hq
  | cons a rows ih =>
      rcases List.mem_cons.mp hq with heq | hmem
      · subst heq
        cases he : err q with
        | none => rw [he] at hf; simp at hf
        | some msg =>
            simp only [writerLoop, he]
            exact writerLoop_failed_mono _ _ _ _ (mem_keys_dictInsert_self _ _ _)
      · cases he : err a with
        | some msg =>
            simp only [writerLoop, he]
            exact ih _ hmem
        | none =>
            simp only [writerLoop, he]
            exact ih _ hmem

theorem applyAlterAttempt_eq (b : Bool) : applyAlterAttempt b = b := by
  have h : sqliteAlterAccepted alter_statement = false := by decide
  simp [applyAlterAttempt, h]

theorem insert_db_eq (err : (String → Value) → Option String)
    (df : List (String → Value)) (db : List OrderRecord) (b : Bool) :
    (insert_into_existing_table err df db b).db =
      upsertAll db (df.filter (fun q => (err q).isNone)) := by
  cases df with
  | nil => rfl
  | cons q rest => simp [insert_into_existing_table, writerLoop_db]

theorem insert_nullable_eq (err : (String → Value) → Option String)
    (df : List (String → Value)) (db : List OrderRecord) (b : Bool) :
    (insert_into_existing_table err df db b).customer_name_nullable = b := by
  cases df with
  | nil => rfl
  | cons q rest =>
      simp [insert_into_existing_table, writerLoop_nullable, applyAlterAttempt_eq]

theorem insert_successes_eq (err : (String → Value) → Option String)
    (df : List (String → Value)) (db : List OrderRecord) (b : Bool) :
    (insert_into_existing_table err df db b).successful_transfers =
      (df.filter (fun q => (err q).isNone)).map rid := by
  cases df with
  | nil => rfl
  | cons q rest => simp [insert_into_existing_table, writerLoop_successes]

theorem insert_failed_mem (err : (String → Value) → Option String)
    (df : List (String → Value)) (db : List OrderRecord) (b : Bool)
    (q : String → Value) (hq : q ∈ df) (hf : (err q).isSome = true) :
    rid q ∈ (insert_into_existing_table err df db b).failed_transfers.map Prod.fst := by
  cases df with
  | nil => cases hq
  | cons a rest =>
      have hne : (a :: rest).isEmpty = false := rfl
      simp only [insert_into_existing_table, hne, Bool.false_eq_true, if_false]
      exact writerLoop_failed_mem _ _ _ q hq hf

theorem rid_stampRow (ts : String) (q : String → Value) :
    rid (stampRow ts q) = rid q := rfl

theorem updated_at_stampRow (ts : String) (q : String → Value) :
    stampRow ts q "updated_at" = Value.str ts := rfl

theorem any_rid_map_stampRow (rows : List (String → Value)) (ts : String) (v : Value) :
    (rows.map (stampRow ts)).any (fun q => sqlEqB (rid q) v) =
      rows.any (fun q => sqlEqB (rid q) v) := by
  rw [List.any_map]
  rfl

theorem validate_order_id_true_iff (v : Value) :
    validate_order_id v = true ↔
      ∃ s, v = Value.str s ∧ pyStartsWith (pyUpper (pyStrip s)) "OR" = true := by
  cases v <;> simp [validate_order_id]

theorem length_filter_split {α : Type} (l : List α) (p : α → Bool) :
    (l.filter p).length + (l.filter (fun a => !p a)).length = l.length := by
  rw [← List.countP_eq_length_filter, ← List.countP_eq_length_filter]
  have h := List.length_eq_countP_add_countP (l := l) p
  simpa using h.symm

theorem digitChar_isDigit {n : Nat} (h : n < 10) : (Nat.digitChar n).isDigit = true := by
  interval_cases n <;> decide

theorem isTsFormat_strftime (d : DateTime) (hy : d.year < 10000) (hmo : d.month < 100)
    (hd : d.day < 100) (hh : d.hour < 100) (hn : d.minute < 100) (hs : d.second < 100) :
    isTsFormat (strftime d) = true := by
  have e : isTsFormat (strftime d) =
      ((Nat.digitChar (d.year / 1000)).isDigit && (Nat.digitChar (d.year / 100 % 10)).isDigit &&
       (Nat.digitChar (d.year / 10 % 10)).isDigit && (Nat.digitChar (d.year % 10)).isDigit &&
       ('-' == '-') &&
       (Nat.digitChar (d.month / 10)).isDigit && (Nat.digitChar (d.month % 10)).isDigit &&
       ('-' == '-') &&
       (Nat.digitChar (d.day / 10)).isDigit && (Nat.digitChar (d.day % 10)).isDigit &&
       (' ' == ' ') &&
       (Nat.digitChar (d.hour / 10)).isDigit && (Nat.digitChar (d.hour % 10)).isDigit &&
       (':' == ':') &&
       (Nat.digitChar (d.minute / 10)).isDigit && (Nat.digitChar (d.minute % 10)).isDigit &&
       (':' == ':') &&
       (Nat.digitChar (d.second / 10)).isDigit && (Nat.digitChar (d.second % 10)).isDigit) := rfl
  have hy1 : d.year / 1000 < 10 := (Nat.div_lt_iff_lt_mul (by decide)).mpr (by omega)
  have hmo1 : d.month / 10 < 10 := (Nat.div_lt_iff_lt_mul (by decide)).mpr (by omega)
  have hd1 : d.day / 10 < 10 := (Nat.div_lt_iff_lt_mul (by decide)).mpr (by omega)
  have hh1 : d.hour / 10 < 10 := (Nat.div_lt_iff_lt_mul (by decide)).mpr (by omega)
  have hn1 : d.minute / 10 < 10 := (Nat.div_lt_iff_lt_mul (by decide)).mpr (by omega)
  have hs1 : d.second / 10 < 10 := (Nat.div_lt_iff_lt_mul (by decide)).mpr (by omega)
  have hmod : ∀ x : Nat, x % 10 < 10 := fun x => Nat.mod_lt _ (by decide)
  rw [e]
  simp [digitChar_isDigit hy1, digitChar_isDigit hmo1, digitChar_isDigit hd1,
    digitChar_isDigit hh1, digitChar_isDigit hn1, digitChar_isDigit hs1,
    digitChar_isDigit (hmod (d.year / 100)), digitChar_isDigit (hmod (d.year / 10)),
    digitChar_isDigit (hmod d.year), digitChar_isDigit (hmod d.month),
    digitChar_isDigit (hmod d.day), digitChar_isDigit (hmod d.hour),
    digitChar_isDigit (hmod d.minute), digitChar_isDigit (hmod d.second)]

theorem find?_some_eq {α : Type} (l : List α) (p : α → Bool) (a : α)
    (h : l.find? p = some a) : p a = true := by
  induction l with
  | nil => cases h
  | cons x l ih =>
      by_cases hx : p x = true
      · have : (x :: l).find? p = some x := by simp [List.find?_cons, hx]
        rw [this] at h
        injection h with h
        subst h
        exact hx
      · have hx' : p x = false := by simpa using hx
        have : (x :: l).find? p = l.find? p := by simp [List.find?_cons, hx']
        rw [this] at h
        exact ih h

theorem loadStage_ok_parts (t : RawTable) (df : RawTable) (h : loadStage t = Except.ok df) :
    df.headers = expected_columns ∧ df.rows = t.rows := by
  unfold loadStage at h
  by_cases hc : expected_columns.all (fun c => decide (c ∈ (dropUnnamed t).headers)) = true
  · rw [if_pos hc] at h
    cases h
    exact ⟨rfl, rfl⟩
  · rw [if_neg hc] at h
    cases h

theorem load_and_clean_mem_decomp (t : RawTable) (now : DateTime) (out : RawTable)
    (hok : load_and_clean_excel t now = Except.ok out)
    (q : String → Value) (hq : q ∈ out.rows) :
    ∃ q0, q0 ∈ t.rows ∧ validate_order_id (q0 "order_id") = true ∧
      q = stampRow (strftime now) (cleanRow q0) := by
  unfold load_and_clean_excel at hok
  cases hls : loadStage t with
  | error e => rw [hls] at hok; cases hok
  | ok df =>
      rw [hls] at hok
      dsimp only at hok
      obtain ⟨hdh, hdr⟩ := loadStage_ok_parts t df hls
      by_cases he : (filterValid df.rows).isEmpty = true
      · rw [if_pos he] at hok
        cases hok
        have hemp : filterValid df.rows = [] := List.isEmpty_iff.mp he
        rw [hemp] at hq
        cases hq
      · rw [if_neg he] at hok
        cases hok
        rcases List.mem_map.mp hq with ⟨q0, hq0, rfl⟩
        exact ⟨q0, hdr ▸ (List.mem_filter.mp hq0).1, (List.mem_filter.mp hq0).2, rfl⟩

theorem clean_value_idem (v : Value) : clean_value (clean_value v) = clean_value v := by
  by_cases h : (v = Value.null ∨ v = Value.str "" ∨ v = Value.str " ")
  · simp [clean_value, h]
  · simp [clean_value, h]

theorem clean_value_not_blankish (v : Value) :
    clean_value v ≠ Value.str "" ∧ clean_value v ≠ Value.str " " := by
  by_cases h : (v = Value.null ∨ v = Value.str "" ∨ v = Value.str " ")
  · constructor <;> simp [clean_value, h]
  · push_neg at h
    constructor <;> simp [clean_value, h.1, h.2.1, h.2.2]

/-! ### Fixtures used by the witnesses -/

/-- A valid row (`order_id` `"OR001"`) whose `customer_name` is the
two-space string. -/
def wRow : String → Value := fun c =>
  if c = "order_id" then Value.str "OR001"
  else if c = "customer_name" then Value.str "  "
  else if c = "updated_at" then Value.str "2026-01-02 03:04:05"
  else Value.str "x"

/-- A second valid row with identifier `"OR002"`. -/
def wRow2 : String → Value := fun c =>
  if c = "order_id" then Value.str "OR002" else Value.null

/-- A row whose identifier does not start with `OR`. -/
def wRowBad : String → Value := fun c =>
  if c = "order_id" then Value.str "BAD1" else Value.null

/-- A pre-existing stored record for `"OR001"` with a human `created_by`. -/
def wOld : OrderRecord :=
  { order_id := Value.str "OR001", customer_name := Value.null, carta_id := Value.null,
    status := Value.null, width_of_carta := Value.null, shape_of_carta := Value.null,
    created_by := Value.str "alice", updated_by := Value.str "bob",
    updated_at := Value.str "2025-12-31 00:00:00" }

/-- An input table with all six required columns, one valid and one invalid
row. -/
def wTable : RawTable := { headers := expected_columns, rows := [wRow, wRowBad] }

/-- An input table missing the `carta_id` column (and carrying an unnamed
placeholder column). -/
def wBadTable : RawTable :=
  { headers := ["order_id", "customer_name", "status", "width_of_carta",
                "shape_of_carta", "Unnamed: 0"],
    rows := [wRow] }

/-- A fixed processing instant. -/
def wNow : DateTime := ⟨2026, 1, 2, 3, 4, 5⟩

/-- The cleaned table produced from `wTable` at `wNow`. -/
def wOut : RawTable :=
  { headers := expected_columns ++ ["updated_at"],
    rows := [stampRow (strftime wNow) (cleanRow wRow)] }

/-- An oracle under which exactly the rows keyed `"OR002"` raise a
database error. -/
def wErr : (String → Value) → Option String := fun q =>
  if rid q = Value.str "OR002" then some "UNIQUE constraint failed" else none

/-- First Writer pass over the batch `[wRow]` stamped with one timestamp. -/
def wDb1 : List OrderRecord :=
  (insert_into_existing_table errNone
    ([wRow].map (stampRow "2026-01-01 00:00:00")) [] false).db

/-- Second Writer pass over the same batch stamped with a later timestamp. -/
def wDb2 : List OrderRecord :=
  (insert_into_existing_table errNone
    ([wRow].map (stampRow "2026-01-02 03:04:05")) wDb1 false).db

/-! ### The claims -/

/-- Claim C1: for a Writer row whose identifier already exists in the
`Order` table, the upsert stores under that identifier the record built from
the row's business fields with fresh `updated_by`/`updated_at`, keeps the
pre-existing record's `created_by` (defaulting to `'system'` when that value
is SQL `NULL`), and leaves exactly one record under the identifier; for a
row whose identifier does not exist, a new record with
`created_by = updated_by = 'system'` is appended. -/
theorem c1_upsert_semantics (db : List OrderRecord) (q : String → Value) :
    (∀ old, findRec db (rid q) = some old →
        findRec (upsertRow db q) (rid q) =
          some (mkRecord q (if old.created_by = Value.null then Value.str "system"
                            else old.created_by))
        ∧ countId (upsertRow db q) (rid q) = 1)
    ∧ (findRec db (rid q) = none →
        upsertRow db q = db ++ [mkRecord q (Value.str "system")]) := by
  constructor
  · intro old hold
    have hold' : db.find? (fun w => sqlEqB w.order_id (rid q)) = some old := hold
    have hp : sqlEqB old.order_id (rid q) = true :=
      find?_some_eq db (fun w => sqlEqB w.order_id (rid q)) old hold'
    have hnn : rid q ≠ Value.null := (sqlEqB_true_iff.mp hp).2.2
    have hsql : sqlEqB (rid q) (rid q) = true := sqlEqB_true_iff.mpr ⟨rfl, hnn, hnn⟩
    constructor
    · rw [findRec_upsertRow, if_pos hsql]
      unfold coalesce_created
      rw [hold]
    · rw [countId_upsertRow, if_pos hsql]
  · intro hnone
    have hnone' : db.find? (fun w => sqlEqB w.order_id (rid q)) = none := hnone
    have hfilter : db.filter (fun w => !sqlEqB w.order_id (rid q)) = db := by
      apply List.filter_eq_self.mpr
      intro a ha
      have := List.find?_eq_none.mp hnone' a ha
      simpa using this
    have hco : coalesce_created db (rid q) = Value.str "system" := by
      unfold coalesce_created
      rw [hnone]
    unfold upsertRow
    rw [hfilter, hco]

/-- Witness for C1 at a store holding one record for `"OR001"` with
`created_by = 'alice'`, and at the empty store. -/
theorem c1_upsert_semantics_witness :
    (findRec (upsertRow [wOld] wRow) (rid wRow) =
        some (mkRecord wRow (if wOld.created_by = Value.null then Value.str "system"
                             else wOld.created_by))
      ∧ countId (upsertRow [wOld] wRow) (rid wRow) = 1)
    ∧ upsertRow [] wRow = [] ++ [mkRecord wRow (Value.str "system")] :=
  ⟨(c1_upsert_semantics [wOld] wRow).1 wOld rfl,
   (c1_upsert_semantics [] wRow).2 rfl⟩

/-- Claim C4: a table in which some required column is absent after
dropping unnamed-placeholder columns makes the Loader fail with the
`Missing required columns` error naming exactly the absent required
columns, and no table is returned; a table containing all six is restricted
to exactly the expected columns with the rows untouched. -/
theorem c4_loader (t : RawTable) :
    (missingColumns t ≠ [] →
        loadStage t =
          Except.error ("Missing required columns: " ++
            String.intercalate ", " (missingColumns t))
        ∧ ∀ c, c ∈ missingColumns t ↔
            (c ∈ expected_columns ∧ c ∉ (dropUnnamed t).headers))
    ∧ (missingColumns t = [] →
        loadStage t = Except.ok { headers := expected_columns, rows := t.rows }) := by
  constructor
  · intro hne
    constructor
    · have hnall : ¬ expected_columns.all
          (fun c => decide (c ∈ (dropUnnamed t).headers)) = true := by
        intro hall
        apply hne
        apply List.filter_eq_nil_iff.mpr
        intro c hc
        have hct : c ∈ (dropUnnamed t).headers :=
          of_decide_eq_true (List.all_eq_true.mp hall c hc)
        simp [hct]
      unfold loadStage
      rw [if_neg hnall]
    · intro c
      simp [missingColumns, List.mem_filter]
  · intro heq
    have hall : expected_columns.all
        (fun c => decide (c ∈ (dropUnnamed t).headers)) = true := by
      apply List.all_eq_true.mpr
      intro c hc
      by_contra hb
      have hnotmem : c ∉ (dropUnnamed t).headers := by simpa using hb
      have : c ∈ missingColumns t :=
        List.mem_filter.mpr ⟨hc, decide_eq_true hnotmem⟩
      rw [heq] at this
      cases this
    unfold loadStage
    rw [if_pos hall]

/-- Witness for C4 at a table missing `carta_id` and at a complete table. -/
theorem c4_loader_witness :
    (loadStage wBadTable =
        Except.error ("Missing required columns: " ++
          String.intercalate ", " (missingColumns wBadTable))
      ∧ ("carta_id" ∈ missingColumns wBadTable ↔
          ("carta_id" ∈ expected_columns ∧ "carta_id" ∉ (dropUnnamed wBadTable).headers)))
    ∧ loadStage wTable = Except.ok { headers := expected_columns, rows := wTable.rows } :=
  ⟨⟨((c4_loader wBadTable).1 (by decide)).1,
    ((c4_loader wBadTable).1 (by decide)).2 "carta_id"⟩,
   (c4_loader wTable).2 (by decide)⟩

/-- Claim C7: an empty batch makes the Writer return at once: the store and
the schema are unchanged, and both transfer trackers are empty (zero
records written), without raising. -/
theorem c7_empty_batch (err : (String → Value) → Option String)
    (db : List OrderRecord) (b : Bool) :
    insert_into_existing_table err [] db b =
      { db := db, customer_name_nullable := b,
        successful_transfers := [], failed_transfers := [] } := rfl

/-- Claim C8: when the input file does not exist, `main` logs the missing
file, raises nothing, invokes neither Loader nor Writer, and leaves the
store and schema unchanged. -/
theorem c8_missing_file (now : DateTime) (err : (String → Value) → Option String)
    (db : List OrderRecord) (b : Bool) :
    main none now err db b =
      { raised := none, loader_invoked := false, writer_invoked := false,
        db := db, customer_name_nullable := b,
        error_logs := ["File not found: " ++ file_path] } := rfl

/-- Claim C9 (refuting the claim as stated): the `ALTER TABLE ... MODIFY
COLUMN` statement is MySQL syntax that SQLite's `ALTER TABLE` grammar
rejects, the resulting `OperationalError` is swallowed, and so a run leaves
the `customer_name` nullability of the schema exactly as it was — in
particular a `NOT NULL` column is never loosened. -/
theorem c9_schema_never_altered (err : (String → Value) → Option String)
    (df : List (String → Value)) (db : List OrderRecord) (b : Bool) :
    (insert_into_existing_table err df db b).customer_name_nullable = b
    ∧ sqliteAlterAccepted alter_statement = false :=
  ⟨insert_nullable_eq err df db b, by decide⟩

/-- Claim C2: two Writer passes over the same batch (each pass stamped with
its own timestamp) leave exactly one stored record for any identifier of
the batch, with `created_by` unchanged between the passes and `updated_at`
equal to the later pass's timestamp. -/
theorem c2_idempotence (db db1 db2 : List OrderRecord) (b : Bool)
    (rows : List (String → Value)) (ts1 ts2 : String) (v : Value)
    (h1 : db1 = (insert_into_existing_table errNone (rows.map (stampRow ts1)) db b).db)
    (h2 : db2 = (insert_into_existing_table errNone (rows.map (stampRow ts2)) db1 b).db)
    (hmem : rows.any (fun q => sqlEqB (rid q) v) = true) :
    countId db2 v = 1
    ∧ (findRec db2 v).map OrderRecord.created_by = (findRec db1 v).map OrderRecord.created_by
    ∧ (findRec db2 v).map OrderRecord.updated_at = some (Value.str ts2) := by
  have hfilter : ∀ (df : List (String → Value)),
      df.filter (fun q => (errNone q).isNone) = df := by
    intro df
    apply List.filter_eq_self.mpr
    intro a _
    rfl
  have hw1 : db1 = upsertAll db (rows.map (stampRow ts1)) := by
    rw [h1, insert_db_eq, hfilter]
  have hw2 : db2 = upsertAll db1 (rows.map (stampRow ts2)) := by
    rw [h2, insert_db_eq, hfilter]
  have hm1 : (rows.map (stampRow ts1)).any (fun q => sqlEqB (rid q) v) = true := by
    rw [any_rid_map_stampRow]
    exact hmem
  have hm2 : (rows.map (stampRow ts2)).any (fun q => sqlEqB (rid q) v) = true := by
    rw [any_rid_map_stampRow]
    exact hmem
  refine ⟨?_, ?_, ?_⟩
  · rw [hw2]
    exact countId_upsertAll_mem _ _ _ hm2
  · rcases created_upsertAll_some (rows.map (stampRow ts1)) db v hm1 with ⟨c, hc, hfind⟩
    rw [← hw1] at hfind
    rw [hw2, created_upsertAll_preserved (rows.map (stampRow ts2)) db1 v c hc hfind, hfind]
  · rw [hw2]
    apply findRec_upsertAll_updated
    · intro q hq
      rcases List.mem_map.mp hq with ⟨q0, _, rfl⟩
      rfl
    · exact hm2

/-- Witness for C2: the batch `[wRow]` written twice into an empty store
with two different stamps. -/
theorem c2_idempotence_witness :
    countId wDb2 (Value.str "OR001") = 1
    ∧ (findRec wDb2 (Value.str "OR001")).map OrderRecord.created_by
        = (findRec wDb1 (Value.str "OR001")).map OrderRecord.created_by
    ∧ (findRec wDb2 (Value.str "OR001")).map OrderRecord.updated_at
        = some (Value.str "2026-01-02 03:04:05") :=
  c2_idempotence [] wDb1 wDb2 false [wRow] "2026-01-01 00:00:00" "2026-01-02 03:04:05"
    (Value.str "OR001") rfl rfl (by decide)

/-- Claim C3: the Validator keeps a row iff its identifier is a string
whose stripped, upper-cased form starts with `"OR"`; the kept and excluded
row counts add up to the full row count; and a table whose load stage
succeeded is processed to a result without any error being raised. -/
theorem c3_validator (rows : List (String → Value)) (t : RawTable) (now : DateTime)
    (df : RawTable) (hls : loadStage t = Except.ok df) :
    (∀ q, q ∈ filterValid rows ↔
        (q ∈ rows ∧ ∃ s, q "order_id" = Value.str s ∧
            pyStartsWith (pyUpper (pyStrip s)) "OR" = true))
    ∧ (filterValid rows).length +
        (rows.filter (fun q => !validate_order_id (q "order_id"))).length = rows.length
    ∧ ∃ out, load_and_clean_excel t now = Except.ok out := by
  refine ⟨?_, length_filter_split rows _, ?_⟩
  · intro q
    constructor
    · intro h
      rcases List.mem_filter.mp h with ⟨hm, hv⟩
      exact ⟨hm, (validate_order_id_true_iff _).mp hv⟩
    · rintro ⟨hm, hv⟩
      exact List.mem_filter.mpr ⟨hm, (validate_order_id_true_iff _).mpr hv⟩
  · unfold load_and_clean_excel
    rw [hls]
    dsimp only
    split
    · exact ⟨_, rfl⟩
    · exact ⟨_, rfl⟩

/-- Witness for C3 at a two-row batch with one valid and one invalid
identifier. -/
theorem c3_validator_witness :
    (wRow ∈ filterValid [wRow, wRowBad] ↔
        (wRow ∈ [wRow, wRowBad] ∧ ∃ s, wRow "order_id" = Value.str s ∧
            pyStartsWith (pyUpper (pyStrip s)) "OR" = true))
    ∧ (filterValid [wRow, wRowBad]).length +
        ([wRow, wRowBad].filter (fun q => !validate_order_id (q "order_id"))).length = 2
    ∧ ∃ out, load_and_clean_excel wTable wNow = Except.ok out :=
  ⟨(c3_validator [wRow, wRowBad] wTable wNow
      { headers := expected_columns, rows := wTable.rows } rfl).1 wRow,
   (c3_validator [wRow, wRowBad] wTable wNow
      { headers := expected_columns, rows := wTable.rows } rfl).2.1,
   (c3_validator [wRow, wRowBad] wTable wNow
      { headers := expected_columns, rows := wTable.rows } rfl).2.2⟩

/-- Claim C5 counterexample: the surviving row keeps its two-space
`customer_name` cell — a blank string (it strips to the empty string) that
is not replaced by `NULL`, refuting the claim that every blank-string cell
becomes null. -/
theorem c5_counterexample :
    (load_and_clean_excel wTable wNow).map
        (fun out => out.rows.map (fun q => q "customer_name"))
      = Except.ok [Value.str "  "]
    ∧ pyStrip "  " = "" ∧ Value.str "  " ≠ Value.null :=
  ⟨rfl, by decide, by decide⟩

/-- Claim C5 (amended): in every surviving row, every cell of a selected
column is in cleaned form — in particular no empty-string and no
single-space cell remains, those and absent cells having been replaced by
`NULL` — and the row's `updated_at` is the non-null timestamp string in the
fixed `YYYY-MM-DD HH:MM:SS` format. -/
theorem c5_cleaning (t : RawTable) (now : DateTime) (out : RawTable)
    (hok : load_and_clean_excel t now = Except.ok out)
    (q : String → Value) (hq : q ∈ out.rows) (c : String) (hc : c ∈ expected_columns)
    (hy : now.year < 10000) (hmo : now.month < 100) (hd : now.day < 100)
    (hh : now.hour < 100) (hn : now.minute < 100) (hs : now.second < 100) :
    q c = clean_value (q c)
    ∧ q c ≠ Value.str "" ∧ q c ≠ Value.str " "
    ∧ q "updated_at" = Value.str (strftime now)
    ∧ Value.str (strftime now) ≠ Value.null
    ∧ isTsFormat (strftime now) = true := by
  rcases load_and_clean_mem_decomp t now out hok q hq with ⟨q0, _, _, rfl⟩
  have hcne : c ≠ "updated_at" := by
    intro hceq
    subst hceq
    revert hc
    decide
  have hqc : stampRow (strftime now) (cleanRow q0) c = clean_value (q0 c) := by
    unfold stampRow cleanRow
    rw [if_neg hcne, if_pos hc]
  refine ⟨?_, ?_, ?_, rfl, ?_, isTsFormat_strftime now hy hmo hd hh hn hs⟩
  · rw [hqc, clean_value_idem]
  · rw [hqc]
    exact (clean_value_not_blankish _).1
  · rw [hqc]
    exact (clean_value_not_blankish _).2
  · intro hcon
    cases hcon

/-- Witness for C5 (amended) at the `customer_name` cell of the surviving
row of `wTable`. -/
theorem c5_cleaning_witness :
    stampRow (strftime wNow) (cleanRow wRow) "customer_name"
        = clean_value (stampRow (strftime wNow) (cleanRow wRow) "customer_name")
    ∧ stampRow (strftime wNow) (cleanRow wRow) "customer_name" ≠ Value.str ""
    ∧ stampRow (strftime wNow) (cleanRow wRow) "customer_name" ≠ Value.str " "
    ∧ stampRow (strftime wNow) (cleanRow wRow) "updated_at" = Value.str (strftime wNow)
    ∧ Value.str (strftime wNow) ≠ Value.null
    ∧ isTsFormat (strftime wNow) = true :=
  c5_cleaning wTable wNow wOut rfl (stampRow (strftime wNow) (cleanRow wRow))
    (by
      show _ ∈ [stampRow (strftime wNow) (cleanRow wRow)]
      exact List.mem_singleton.mpr rfl)
    "customer_name" (by decide) (by decide) (by decide) (by decide) (by decide)
    (by decide) (by decide)

/-- Claim C6: with a per-row database-error oracle, the Writer's final
store is exactly the fold of the upserts of the non-failing rows (rows
before and after a failing row are processed and their records are
unaffected), the successful tracker lists exactly the non-failing rows'
identifiers, its reported count matches, and every failing row's identifier
is recorded in the failed tracker. -/
theorem c6_row_isolation (err : (String → Value) → Option String)
    (df : List (String → Value)) (db : List OrderRecord) (b : Bool)
    (q : String → Value) (hq : q ∈ df) (hf : (err q).isSome = true) :
    (insert_into_existing_table err df db b).db =
      upsertAll db (df.filter (fun w => (err w).isNone))
    ∧ (insert_into_existing_table err df db b).successful_transfers =
        (df.filter (fun w => (err w).isNone)).map rid
    ∧ (insert_into_existing_table err df db b).successful_transfers.length =
        (df.filter (fun w => (err w).isNone)).length
    ∧ rid q ∈ (insert_into_existing_table err df db b).failed_transfers.map Prod.fst :=
  ⟨insert_db_eq err df db b, insert_successes_eq err df db b,
    by rw [insert_successes_eq]; simp,
    insert_failed_mem err df db b q hq hf⟩

/-- Witness for C6 at a two-row batch whose second row (`"OR002"`) raises a
database error. -/
theorem c6_row_isolation_witness :
    (insert_into_existing_table wErr [wRow, wRow2] [] false).db =
      upsertAll [] ([wRow, wRow2].filter (fun w => (wErr w).isNone))
    ∧ (insert_into_existing_table wErr [wRow, wRow2] [] false).successful_transfers =
        ([wRow, wRow2].filter (fun w => (wErr w).isNone)).map rid
    ∧ (insert_into_existing_table wErr [wRow, wRow2] [] false).successful_transfers.length =
        ([wRow, wRow2].filter (fun w => (wErr w).isNone)).length
    ∧ rid wRow2 ∈
        (insert_into_existing_table wErr [wRow, wRow2] [] false).failed_transfers.map Prod.fst :=
  c6_row_isolation wErr [wRow, wRow2] [] false wRow2
    (List.Mem.tail _ (List.Mem.head _)) (by decide)

/-- Claim C10: all rows surviving one run carry one and the same
`updated_at` value, the run's single formatted timestamp. -/
theorem c10_uniform_timestamp (t : RawTable) (now : DateTime) (out : RawTable)
    (hok : load_and_clean_excel t now = Except.ok out)
    (q1 : String → Value) (hq1 : q1 ∈ out.rows)
    (q2 : String → Value) (hq2 : q2 ∈ out.rows) :
    q1 "updated_at" = q2 "updated_at"
    ∧ q1 "updated_at" = Value.str (strftime now) := by
  rcases load_and_clean_mem_decomp t now out hok q1 hq1 with ⟨a1, _, _, rfl⟩
  rcases load_and_clean_mem_decomp t now out hok q2 hq2 with ⟨a2, _, _, rfl⟩
  exact ⟨rfl, rfl⟩

/-- Witness for C10 at the one-survivor batch of `wTable`. -/
theorem c10_uniform_timestamp_witness :
    stampRow (strftime wNow) (cleanRow wRow) "updated_at"
        = stampRow (strftime wNow) (cleanRow wRow) "updated_at"
    ∧ stampRow (strftime wNow) (cleanRow wRow) "updated_at" = Value.str (strftime wNow) :=
  c10_uniform_timestamp wTable wNow wOut rfl
    (stampRow (strftime wNow) (cleanRow wRow))
    (by
      show _ ∈ [stampRow (strftime wNow) (cleanRow wRow)]
      exact List.mem_singleton.mpr rfl)
    (stampRow (strftime wNow) (cleanRow wRow))
    (by
      show _ ∈ [stampRow (strftime wNow) (cleanRow wRow)]
      exact List.mem_singleton.mpr rfl)

end Detector
